import Mathlib

/-!
Verification development for a small retail point-of-sale system.

The system has two scripts:
* a till (`till.py`): loads an inventory table, maintains a per-session
  cart, and on checkout appends sale-line rows to a sales ledger and
  decrements inventory stock;
* a dashboard: loads the ledger and inventory, filters the ledger by
  date range / category / brand, and computes KPI aggregates and a
  reorder / low-stock heuristic.

Below, the relevant functions of both scripts are shallowly embedded as
pure Lean functions.  Money is modelled as `ℚ`; quantities and stock
levels as `ℤ` (the Python values are ints, but intermediate arithmetic
may go negative); the Python `round(x, 2)` is modelled as rounding the
rational `100 * x` to the nearest integer and dividing by `100`.
Streamlit session state (cart, member id, discount) together with the
two persisted tables is modelled as an explicit `TillState` record, and
each UI callback becomes a state-transformer.
-/

namespace Till

/-- Discount type held in `st.session_state.discount_type`:
`"percent"` or `"fixed"`. -/
inductive DiscountType
  | percent
  | fixed
deriving DecidableEq

/-- One row of the inventory table (`inventory.xlsx`), with the columns
the two scripts use.  `reorder_level` is optional (the column may hold
nulls).  `stock_qty` is an integer that the system is supposed to keep
nonnegative. -/
structure Product where
  barcode : String
  name : String
  category : String
  brand : String
  supplier : String
  price : ℚ
  cost_price : ℚ
  pack_size : String
  stock_qty : ℤ
  reorder_level : Option ℤ
  is_active : Bool
deriving DecidableEq

/-- One cart line as built by `add_to_cart` (till.py lines 77-86).
The `uuid4` line identifier is modelled as a natural number drawn from a
fresh-id counter in the state. -/
structure CartLine where
  id : ℕ
  barcode : String
  name : String
  qty : ℤ
  unit_price : ℚ
  category : String
  pack_size : String
deriving DecidableEq

/-- One row appended to the sales ledger (`sales_log.csv`) by
`save_sale` (till.py lines 124-128).  The `uuid4` sale identifier is
modelled as a natural number; the timestamp column is not modelled (no
claim depends on the till-side timestamp value). -/
structure SaleRecord where
  sale_id : ℕ
  member_id : String
  barcode : String
  name : String
  category : String
  qty : ℤ
  unit_price : ℚ
  line_total : ℚ
  discount : ℚ
deriving DecidableEq

/-- The whole observable state of one till session: the in-memory
inventory (`inventory_df` / `PRODUCTS`, kept in sync by the code), the
persisted copy of the inventory file, the persisted sales ledger, and
the streamlit session state.  `nextId` is the source of fresh
identifiers (modelling `uuid.uuid4()`). -/
structure TillState where
  inventory : List Product
  persistedInventory : List Product
  ledger : List SaleRecord
  cart : List CartLine
  member_id : String
  discount : ℚ
  discount_type : DiscountType
  nextId : ℕ
deriving DecidableEq

/-- till.py line 29: `inventory_df = inventory_df[inventory_df["is_active"] == True]`.
The in-memory inventory keeps only the active rows of the loaded file. -/
def loadInventory (raw : List Product) : List Product :=
  raw.filter (fun p => p.is_active)

/-- The state right after till.py's module-level initialisation: the
in-memory inventory is the active-row filter of the raw file contents,
the cart is empty, member id empty, discount `0` of type percent. -/
def initState (raw : List Product) (ledger : List SaleRecord) : TillState :=
  { inventory := loadInventory raw
    persistedInventory := raw
    ledger := ledger
    cart := []
    member_id := ""
    discount := 0
    discount_type := DiscountType.percent
    nextId := 0 }

/-- `PRODUCTS.get(barcode)`: look a product up by barcode (first match). -/
def findProduct : List Product → String → Option Product
  | [], _ => none
  | p :: rest, bc => if p.barcode = bc then some p else findProduct rest bc

/-- The `for line in st.session_state.cart: if line["barcode"] == barcode`
scan inside `add_to_cart`: first cart line with the given barcode. -/
def findLine : List CartLine → String → Option CartLine
  | [], _ => none
  | l :: rest, bc => if l.barcode = bc then some l else findLine rest bc

/-- First cart line with the given line identifier
(the scan in `remove_one_from_cart`). -/
def findLineById : List CartLine → ℕ → Option CartLine
  | [], _ => none
  | l :: rest, lid => if l.id = lid then some l else findLineById rest lid

/-- `line["qty"] += qty` on the first cart line with the given barcode. -/
def bumpQty : List CartLine → String → ℤ → List CartLine
  | [], _, _ => []
  | l :: rest, bc, q =>
      if l.barcode = bc then { l with qty := l.qty + q } :: rest
      else l :: bumpQty rest bc q

/-- `line["qty"] -= 1` on the first cart line with the given identifier. -/
def decQty : List CartLine → ℕ → List CartLine
  | [], _ => []
  | l :: rest, lid =>
      if l.id = lid then { l with qty := l.qty - 1 } :: rest
      else l :: decQty rest lid

/-- Result of `add_to_cart`: in the source the two failures surface as
`st.warning` messages and an early `return`. -/
inductive AddResult
  | ok
  | productNotFound
  | insufficientStock
deriving DecidableEq

/-- till.py lines 58-86, `add_to_cart(barcode, qty)`:
look the product up; fail if absent; fail if `qty` exceeds current
stock; if a line with this barcode exists, fail if the merged quantity
would exceed stock, else merge; otherwise append a fresh line with the
product's current price snapshotted. -/
def add_to_cart (s : TillState) (bc : String) (q : ℤ) : TillState × AddResult :=
  match findProduct s.inventory bc with
  | none => (s, AddResult.productNotFound)
  | some product =>
      if q > product.stock_qty then (s, AddResult.insufficientStock)
      else
        match findLine s.cart bc with
        | some line =>
            if line.qty + q > product.stock_qty then (s, AddResult.insufficientStock)
            else ({ s with cart := bumpQty s.cart bc q }, AddResult.ok)
        | none =>
            ({ s with
                cart := s.cart ++
                  [{ id := s.nextId
                     barcode := bc
                     name := product.name
                     qty := q
                     unit_price := product.price
                     category := product.category
                     pack_size := product.pack_size }]
                nextId := s.nextId + 1 },
              AddResult.ok)

/-- till.py lines 88-95, `remove_one_from_cart(line_id)`: on the first
line with this id, decrement its quantity if it is `> 1`, else drop
every line with this id from the cart. -/
def remove_one_from_cart (s : TillState) (lid : ℕ) : TillState :=
  match findLineById s.cart lid with
  | none => s
  | some line =>
      if line.qty > 1 then { s with cart := decQty s.cart lid }
      else { s with cart := s.cart.filter (fun l => decide (l.id ≠ lid)) }

/-- The pre-discount cart subtotal
`sum(line["unit_price"] * line["qty"] for line in cart)`. -/
def subtotalOf (cart : List CartLine) : ℚ :=
  (cart.map (fun l => l.unit_price * (l.qty : ℚ))).sum

/-- Python's `round(x, 2)` on a currency amount, modelled over `ℚ`:
round `100 * x` to the nearest integer and divide by `100`.  (Python
uses banker's rounding on floats; the spec and claims only require
"rounded to 2 decimal places", and every bound proved below holds for
any nearest-integer rounding.) -/
def round2 (x : ℚ) : ℚ :=
  ((round (x * 100) : ℤ) : ℚ) / 100

/-- till.py lines 116-123: the discounted line total computed by
`save_sale` before rounding.  Percentage discounts apply only when
`discount > 0`; a fixed discount is allocated proportionally to the
line's share of the cart subtotal, and not at all when the subtotal is
not positive. -/
def saleLineTotal (cart : List CartLine) (dtype : DiscountType) (d : ℚ)
    (line : CartLine) : ℚ :=
  let lt := line.unit_price * (line.qty : ℚ)
  if dtype = DiscountType.percent ∧ d > 0 then lt - lt * d / 100
  else if dtype = DiscountType.fixed then
    let cart_total := subtotalOf cart
    if cart_total > 0 then lt - (lt / cart_total) * d else lt
  else lt

/-- till.py lines 108-128, `save_sale(cart, member_id)`: the list of
ledger rows appended for one checkout - one row per cart line, sharing
one sale id, with the line total rounded to 2 decimals and the
cart-level discount value recorded on every row. -/
def save_sale (cart : List CartLine) (member : String) (dtype : DiscountType)
    (d : ℚ) (sid : ℕ) : List SaleRecord :=
  cart.map (fun line =>
    { sale_id := sid
      member_id := member
      barcode := line.barcode
      name := line.name
      category := line.category
      qty := line.qty
      unit_price := line.unit_price
      line_total := round2 (saleLineTotal cart dtype d line)
      discount := d })

/-- till.py lines 136-142: decrement the stock of the first inventory
row with the given barcode by the sold quantity, floored at `0`
(`new_stock = max(current_stock - qty_sold, 0)`); skip if no row
matches. -/
def decrementStock : List Product → String → ℤ → List Product
  | [], _, _ => []
  | p :: rest, bc, q =>
      if p.barcode = bc then { p with stock_qty := max (p.stock_qty - q) 0 } :: rest
      else p :: decrementStock rest bc q

/-- till.py lines 130-144: the in-memory inventory after the
per-cart-line stock decrements of `update_inventory_after_checkout`. -/
def update_inventory_after_checkout (inv : List Product) (cart : List CartLine) :
    List Product :=
  cart.foldl (fun acc line => decrementStock acc line.barcode line.qty) inv

/-- The two validation failures of the checkout-time re-check
(till.py lines 157-164), surfaced as `st.error` plus early `return`. -/
inductive CheckoutError
  | productNotFound
  | insufficientStock
deriving DecidableEq

/-- Overall result of `checkout`: a validation failure, or success with
a flag recording whether the inventory save raised (till.py lines
147-150 catch the exception and surface `st.error`). -/
inductive CheckoutResult
  | failed (e : CheckoutError)
  | success (persistError : Bool)
deriving DecidableEq

/-- till.py lines 157-164: re-validate every cart line against current
stock, returning the first failure (absent product, or quantity above
current stock), if any. -/
def validate_cart (inv : List Product) : List CartLine → Option CheckoutError
  | [] => none
  | line :: rest =>
      match findProduct inv line.barcode with
      | none => some CheckoutError.productNotFound
      | some product =>
          if line.qty > product.stock_qty then some CheckoutError.insufficientStock
          else validate_cart inv rest

/-- till.py lines 152-172, `checkout()`: copy the cart, re-validate it
(aborting with no state change on the first failure), append the sale
rows to the ledger, decrement stock in memory, write the in-memory
inventory back to the file (`persistOk = false` models the write
raising: the error is surfaced, nothing is rolled back), then reset the
session (empty cart, empty member id, discount value `0`). -/
def checkout (s : TillState) (persistOk : Bool) : TillState × CheckoutResult :=
  match validate_cart s.inventory s.cart with
  | some e => (s, CheckoutResult.failed e)
  | none =>
      let newLedger := s.ledger ++
        save_sale s.cart s.member_id s.discount_type s.discount s.nextId
      let newInv := update_inventory_after_checkout s.inventory s.cart
      ({ s with
          ledger := newLedger
          inventory := newInv
          persistedInventory := if persistOk then newInv else s.persistedInventory
          cart := []
          member_id := ""
          discount := 0
          nextId := s.nextId + 1 },
        CheckoutResult.success (!persistOk))

/-- till.py lines 174-189, `handle_scan()`: reject non-positive
quantities and empty barcodes, else call `add_to_cart`. -/
def handle_scan (s : TillState) (code : String) (q : ℤ) : TillState :=
  if q ≤ 0 then s
  else if code = "" then s
  else (add_to_cart s code q).1

/-- The operations a till session can perform, as invocable from the
UI: a barcode scan (till.py line 200, via `handle_scan`), a product
picked from the search box (till.py lines 206-208, `add_to_cart` with
the default quantity `1`), a remove-one button (line 236), the member
id and discount inputs, and the checkout button. -/
inductive Op
  | scan (code : String) (q : ℤ)
  | selectProduct (code : String)
  | removeOne (lid : ℕ)
  | setMember (m : String)
  | setDiscount (t : DiscountType) (v : ℚ)
  | doCheckout (persistOk : Bool)

/-- One UI interaction step. -/
def step (s : TillState) : Op → TillState
  | Op.scan c q => handle_scan s c q
  | Op.selectProduct c => (add_to_cart s c 1).1
  | Op.removeOne lid => remove_one_from_cart s lid
  | Op.setMember m => { s with member_id := m }
  | Op.setDiscount t v => { s with discount_type := t, discount := v }
  | Op.doCheckout ok => (checkout s ok).1

/-- A session: a sequence of UI interactions from a starting state. -/
def run (s : TillState) (ops : List Op) : TillState :=
  ops.foldl step s

end Till

namespace Dash

/-- A calendar date, the granularity at which the dashboard compares
timestamps (`timestamp.dt.date`) and groups by month
(`timestamp.dt.to_period("M")`). -/
structure Date where
  year : ℤ
  month : ℤ
  day : ℤ
deriving DecidableEq

/-- Date ordering used by the sidebar date-range filter
(comparison of `datetime.date` values). -/
def dateLE (a b : Date) : Bool :=
  decide (a.year < b.year ∨
    (a.year = b.year ∧ (a.month < b.month ∨ (a.month = b.month ∧ a.day ≤ b.day))))

/-- The calendar-month period of a date (`to_period("M")`). -/
def monthOf (t : Date) : ℤ × ℤ :=
  (t.year, t.month)

/-- One parsed row of the sales ledger CSV as the dashboard uses it:
barcode, the category recorded on the sale row (the merge keeps the
sales-side `category` column under its original name), the timestamp,
and the quantity sold. -/
structure LedgerRow where
  barcode : String
  category : String
  ts : Date
  qty : ℤ
deriving DecidableEq

/-- The sidebar filter settings: a date range, the selected categories
and the selected brands. -/
structure Filters where
  dateLo : Date
  dateHi : Date
  cats : List String
  brands : List String
deriving DecidableEq

/-- The `brand` column a ledger row acquires in the left merge with the
inventory (dashboard lines 44-49): the brand of the first inventory row
with the same barcode, if any. -/
def brandOf (inv : List Till.Product) (bc : String) : Option String :=
  (Till.findProduct inv bc).map (fun p => p.brand)

/-- The row predicate of the dashboard sidebar filters (lines 63-68): the
row's date lies in the selected range, its sale-side category is among the
selected categories, and its merged brand is among the selected brands (a
row whose barcode has no inventory match carries a null brand, and `isin`
is false on null, so it is dropped). -/
def keepRow (inv : List Till.Product) (f : Filters) (r : LedgerRow) : Bool :=
  dateLE f.dateLo r.ts && dateLE r.ts f.dateHi &&
  f.cats.contains r.category &&
  (match brandOf inv r.barcode with
   | some b => f.brands.contains b
   | none => false)

/-- Dashboard lines 63-68, `sales_filtered`: the ledger rows kept by the
sidebar filters. -/
def sales_filtered (ledger : List LedgerRow) (inv : List Till.Product)
    (f : Filters) : List LedgerRow :=
  ledger.filter (keepRow inv f)

/-- The distinct calendar months in which a product appears in the
given rows (the group keys of `groupby(["barcode", "month"])` for one
barcode). -/
def monthsOf (rows : List LedgerRow) (bc : String) : List (ℤ × ℤ) :=
  ((rows.filter (fun r => decide (r.barcode = bc))).map (fun r => monthOf r.ts)).dedup

/-- Total quantity a product sold in one calendar month
(`groupby(["barcode", "month"])["qty"].sum()`). -/
def monthlyQty (rows : List LedgerRow) (bc : String) (m : ℤ × ℤ) : ℤ :=
  ((rows.filter (fun r => decide (r.barcode = bc ∧ monthOf r.ts = m))).map
    (fun r => r.qty)).sum

/-- Dashboard line 98, `monthly_sales_per_product`: the mean of a
product's per-month quantity totals over the months it appears in;
`none` when the product appears in no row (the product then has no
entry in the grouped series). -/
def avgMonthlySales (rows : List LedgerRow) (bc : String) : Option ℚ :=
  if (monthsOf rows bc).isEmpty then none
  else some ((((monthsOf rows bc).map
    (fun m => (monthlyQty rows bc m : ℚ))).sum) / (monthsOf rows bc).length)

/-- Dashboard line 100, `reorder_levels`: the dynamic reorder level
`max(int(np.ceil(x * 2)), 5)` for each product with sales history. -/
def dynamic_reorder_level (rows : List LedgerRow) (bc : String) : Option ℤ :=
  (avgMonthlySales rows bc).map (fun a => max ⌈a * 2⌉ 5)

/-- Dashboard lines 103-106, the `reorder_level` column of
`inventory_with_reorder` after the left merge and the two `fillna`
steps: the explicit inventory value when non-null, else the dynamic
level when the product has sales history, else `5`. -/
def effective_reorder_level (rows : List LedgerRow) (p : Till.Product) : ℤ :=
  match p.reorder_level with
  | some r => r
  | none =>
      match dynamic_reorder_level rows p.barcode with
      | some dyn => dyn
      | none => 5

/-- Dashboard line 108: a product is low stock iff its stock quantity
is at most its effective reorder level. -/
def low_stock (rows : List LedgerRow) (p : Till.Product) : Bool :=
  decide (p.stock_qty ≤ effective_reorder_level rows p)

/-- Dashboard line 108, `low_stock_df`: the inventory rows flagged low
stock. -/
def low_stock_df (rows : List LedgerRow) (inv : List Till.Product) :
    List Till.Product :=
  inv.filter (low_stock rows)

/-- Dashboard line 235: `monthly_sales_per_product.reindex(...).fillna(0)` -
the average monthly sales used for reorder quantities, `0` for a
product with no sales history. -/
def avgOrZero (rows : List LedgerRow) (bc : String) : ℚ :=
  (avgMonthlySales rows bc).getD 0

/-- Dashboard line 239, the `reorder_qty` column:
`max(2 * avg_monthly_sales - stock_qty, 0)` cast with `astype(int)`.
The value is nonnegative, so the int cast (truncation toward zero)
coincides with the floor used here. -/
def reorder_qty (rows : List LedgerRow) (p : Till.Product) : ℤ :=
  ⌊max (2 * avgOrZero rows p.barcode - (p.stock_qty : ℚ)) 0⌋

end Dash

/-! ### Auxiliary predicates used by the theorems -/

namespace Till

/-- Two inventory rows that agree on every column except possibly
`stock_qty`. -/
def eqExceptStock (p q : Product) : Prop :=
  p.barcode = q.barcode ∧ p.name = q.name ∧ p.category = q.category ∧
  p.brand = q.brand ∧ p.supplier = q.supplier ∧ p.price = q.price ∧
  p.cost_price = q.cost_price ∧ p.pack_size = q.pack_size ∧
  p.reorder_level = q.reorder_level ∧ p.is_active = q.is_active

instance (p q : Product) : Decidable (eqExceptStock p q) := by
  unfold eqExceptStock; infer_instance

/-- How one inventory row relates to its pre-update value across
`update_inventory_after_checkout`: every column but the stock is
unchanged, the stock cannot turn negative, and a row whose barcode is
in no cart line is completely unchanged. -/
def FrameRel (cart : List CartLine) (p p0 : Product) : Prop :=
  eqExceptStock p p0 ∧
  (0 ≤ p0.stock_qty → 0 ≤ p.stock_qty) ∧
  ((∀ l ∈ cart, l.barcode ≠ p0.barcode) → p = p0)

/-- The cart invariant maintained by the UI operations: every line has
quantity at least `1`, and no two lines share a barcode. -/
def cartWF (cart : List CartLine) : Prop :=
  (∀ l ∈ cart, 1 ≤ l.qty) ∧ (cart.map (fun l => l.barcode)).Nodup

end Till

/-! ### Concrete sample data (used by witnesses and counterexamples) -/

/-- An active sample product. -/
def pApple : Till.Product :=
  { barcode := "1001", name := "Apple", category := "Fruit", brand := "Acme",
    supplier := "S1", price := 2, cost_price := 1, pack_size := "each",
    stock_qty := 10, reorder_level := some 4, is_active := true }

/-- An active sample product with no explicit reorder level. -/
def pBread : Till.Product :=
  { barcode := "2002", name := "Bread", category := "Bakery", brand := "Baker",
    supplier := "S2", price := 10, cost_price := 6, pack_size := "loaf",
    stock_qty := 5, reorder_level := none, is_active := true }

/-- An inactive sample product (dropped by the till at load). -/
def pGhost : Till.Product :=
  { barcode := "9009", name := "Ghost", category := "Misc", brand := "Acme",
    supplier := "S1", price := 2, cost_price := 1, pack_size := "",
    stock_qty := 3, reorder_level := none, is_active := false }

/-- A raw inventory file holding two active rows and one inactive row. -/
def sampleRaw : List Till.Product := [pApple, pBread, pGhost]

/-- The till session right after loading `sampleRaw`. -/
def sampleState : Till.TillState := Till.initState sampleRaw []

/-- A sample cart line: 2 units at 50 (pretotal 100). -/
def lineA : Till.CartLine :=
  { id := 0, barcode := "1001", name := "Apple", qty := 2, unit_price := 50,
    category := "Fruit", pack_size := "each" }

/-- A sample cart line: 1 unit at 200 (pretotal 200). -/
def lineB : Till.CartLine :=
  { id := 1, barcode := "2002", name := "Bread", qty := 1, unit_price := 200,
    category := "Bakery", pack_size := "loaf" }

/-- A sample cart with subtotal 300. -/
def sampleCart : List Till.CartLine := [lineA, lineB]

/-- A small in-stock cart line against `pApple` (qty 2 of stock 10). -/
def lineSmall : Till.CartLine :=
  { id := 3, barcode := "1001", name := "Apple", qty := 2, unit_price := 2,
    category := "Fruit", pack_size := "each" }

/-- A session state whose cart passes checkout validation. -/
def okCartState : Till.TillState :=
  { inventory := [pApple], persistedInventory := sampleRaw, ledger := [],
    cart := [lineSmall], member_id := "member1", discount := 10,
    discount_type := Till.DiscountType.percent, nextId := 7 }

/-- A session state whose single cart line exceeds stock (99 > 10). -/
def overState : Till.TillState :=
  { inventory := [pApple], persistedInventory := [pApple], ledger := [],
    cart := [{ id := 0, barcode := "1001", name := "Apple", qty := 99,
               unit_price := 2, category := "Fruit", pack_size := "each" }],
    member_id := "m", discount := 0,
    discount_type := Till.DiscountType.percent, nextId := 5 }

/-- A session state with an empty cart but a member id and a discount. -/
def emptyCartState : Till.TillState :=
  { sampleState with member_id := "m42", discount := 5 }

/-- A product with no explicit reorder level, stock 7 (dashboard data). -/
def pWidget : Till.Product :=
  { barcode := "3003", name := "Widget", category := "Tools", brand := "Acme",
    supplier := "S1", price := 5, cost_price := 2, pack_size := "",
    stock_qty := 7, reorder_level := none, is_active := true }

/-- A January ledger row for `pWidget` (qty 2). -/
def wJan : Dash.LedgerRow :=
  { barcode := "3003", category := "Tools", ts := ⟨2025, 1, 5⟩, qty := 2 }

/-- A February ledger row for `pWidget` (qty 20). -/
def wFeb : Dash.LedgerRow :=
  { barcode := "3003", category := "Tools", ts := ⟨2025, 2, 5⟩, qty := 20 }

/-- A two-row dashboard ledger. -/
def wLedger : List Dash.LedgerRow := [wJan, wFeb]

/-- A one-product dashboard inventory. -/
def wInv : List Till.Product := [pWidget]

/-- Filter settings selecting the whole of `wLedger`. -/
def fAll : Dash.Filters :=
  { dateLo := ⟨2025, 1, 1⟩, dateHi := ⟨2025, 12, 31⟩,
    cats := ["Tools"], brands := ["Acme"] }

/-- Filter settings selecting only January: same ledger and inventory,
narrower date range. -/
def fJan : Dash.Filters :=
  { dateLo := ⟨2025, 1, 1⟩, dateHi := ⟨2025, 1, 31⟩,
    cats := ["Tools"], brands := ["Acme"] }

/-- Ledger rows for the reorder-analyzer witness: 4 units in January
and 6 in February for `pBread` (average 5). -/
def sampleRows : List Dash.LedgerRow :=
  [{ barcode := "2002", category := "Bakery", ts := ⟨2025, 1, 10⟩, qty := 4 },
   { barcode := "2002", category := "Bakery", ts := ⟨2025, 2, 3⟩, qty := 6 }]

/-- A short session used by the stock-nonnegativity witness: scan two
apples and check out. -/
def sampleOps : List Till.Op :=
  [Till.Op.scan "1001" 2, Till.Op.doCheckout true]

/-! ### Basic lemmas about the till functions -/

theorem findProduct_some {inv : List Till.Product} {bc : String} {p : Till.Product}
    (h : Till.findProduct inv bc = some p) : p ∈ inv ∧ p.barcode = bc := by
  induction inv with
  | nil => simp [Till.findProduct] at h
  | cons q rest ih =>
      unfold Till.findProduct at h
      by_cases hq : q.barcode = bc
      · simp [hq] at h
        subst h
        exact ⟨List.mem_cons_self q rest, hq⟩
      · simp [hq] at h
        rcases ih h with ⟨h1, h2⟩
        exact ⟨List.mem_cons_of_mem q h1, h2⟩

theorem validate_cart_eq_none_iff (inv : List Till.Product) (cart : List Till.CartLine) :
    Till.validate_cart inv cart = none ↔
      ∀ l ∈ cart, ∃ p, Till.findProduct inv l.barcode = some p ∧ l.qty ≤ p.stock_qty := by
  induction cart with
  | nil => simp [Till.validate_cart]
  | cons l rest ih =>
      unfold Till.validate_cart
      cases hfp : Till.findProduct inv l.barcode with
      | none => simp [hfp]
      | some p =>
          by_cases hq : l.qty > p.stock_qty
          · simp only [hq, if_pos]
            constructor
            · intro h; exact absurd h (by simp)
            · intro h
              rcases h l (List.mem_cons_self l rest) with ⟨p2, hp2, hle⟩
              rw [hfp] at hp2
              cases hp2
              exact absurd hle (not_le.2 hq)
          · simp only [hq, if_neg, ih, not_false_iff]
            constructor
            · intro h l2 hl2
              rcases List.mem_cons.1 hl2 with rfl | hmem
              · exact ⟨p, hfp, not_lt.1 hq⟩
              · exact h l2 hmem
            · intro h l2 hl2
              exact h l2 (List.mem_cons_of_mem l hl2)

theorem update_inventory_nil (inv : List Till.Product) :
    Till.update_inventory_after_checkout inv [] = inv := rfl

/-- C1: checkout is all-or-nothing with respect to stock validation: if any
cart line's product is absent from the inventory, or its quantity exceeds the
product's current stock quantity, then checkout fails and returns the state
completely unchanged - no ledger row is appended, no stock is decremented,
the persisted inventory is untouched and the cart is left as it was. -/
theorem checkout_all_or_nothing (s : Till.TillState) (b : Bool)
    (h : ∃ l ∈ s.cart, Till.findProduct s.inventory l.barcode = none ∨
      ∃ p, Till.findProduct s.inventory l.barcode = some p ∧ p.stock_qty < l.qty) :
    ∃ e, Till.checkout s b = (s, Till.CheckoutResult.failed e) := by
  have hv : Till.validate_cart s.inventory s.cart ≠ none := by
    rw [Ne, validate_cart_eq_none_iff]
    intro hall
    rcases h with ⟨l, hl, hbad⟩
    rcases hall l hl with ⟨p, hfp, hle⟩
    rcases hbad with hnone | ⟨p2, hp2, hlt⟩
    · rw [hnone] at hfp; cases hfp
    · rw [hp2] at hfp
      cases hfp
      exact absurd hle (not_le.2 hlt)
  rcases Option.ne_none_iff_exists'.1 hv with ⟨e, he⟩
  refine ⟨e, ?_⟩
  unfold Till.checkout
  rw [he]

/-- Witness for C1: a one-line cart asking for 99 apples of stock 10 makes
checkout fail with the state unchanged. -/
theorem checkout_all_or_nothing_witness :
    (∃ l ∈ overState.cart, Till.findProduct overState.inventory l.barcode = none ∨
      ∃ p, Till.findProduct overState.inventory l.barcode = some p ∧ p.stock_qty < l.qty) ∧
    ∃ e, Till.checkout overState true = (overState, Till.CheckoutResult.failed e) := by
  have h : ∃ l ∈ overState.cart, Till.findProduct overState.inventory l.barcode = none ∨
      ∃ p, Till.findProduct overState.inventory l.barcode = some p ∧ p.stock_qty < l.qty :=
    ⟨{ id := 0, barcode := "1001", name := "Apple", qty := 99, unit_price := 2,
       category := "Fruit", pack_size := "each" },
     by decide, Or.inr ⟨pApple, by decide, by decide⟩⟩
  exact ⟨h, checkout_all_or_nothing overState true h⟩

/-- C7: if the inventory save fails after checkout validation passed, the
error is surfaced (the result is success with the persist-error flag set) but
nothing is rolled back: the ledger keeps the rows appended by this checkout
and the in-memory stock decrements stay in effect, while the persisted
inventory file is left at its previous contents. -/
theorem checkout_persist_failure_no_rollback (s : Till.TillState)
    (h : Till.validate_cart s.inventory s.cart = none) :
    (Till.checkout s false).2 = Till.CheckoutResult.success true ∧
    (Till.checkout s false).1.ledger =
      s.ledger ++ Till.save_sale s.cart s.member_id s.discount_type s.discount s.nextId ∧
    (Till.checkout s false).1.inventory =
      Till.update_inventory_after_checkout s.inventory s.cart ∧
    (Till.checkout s false).1.persistedInventory = s.persistedInventory := by
  unfold Till.checkout
  rw [h]
  exact ⟨rfl, rfl, rfl, rfl⟩

/-- Witness for C7: a valid one-line cart checked out with a failing
inventory save keeps its ledger rows and decrements. -/
theorem checkout_persist_failure_no_rollback_witness :
    Till.validate_cart okCartState.inventory okCartState.cart = none ∧
    ((Till.checkout okCartState false).2 = Till.CheckoutResult.success true ∧
     (Till.checkout okCartState false).1.ledger =
       okCartState.ledger ++ Till.save_sale okCartState.cart okCartState.member_id
         okCartState.discount_type okCartState.discount okCartState.nextId ∧
     (Till.checkout okCartState false).1.inventory =
       Till.update_inventory_after_checkout okCartState.inventory okCartState.cart ∧
     (Till.checkout okCartState false).1.persistedInventory =
       okCartState.persistedInventory) :=
  ⟨by decide, checkout_persist_failure_no_rollback okCartState (by decide)⟩

/-- C10: checkout of an empty cart succeeds: the validation passes vacuously,
the result is a success with no persistence error, no ledger row is
appended, the in-memory inventory is unchanged and is rewritten as-is to the
inventory file, and the session is reset (empty cart, member id cleared,
discount value reset to 0). -/
theorem checkout_empty_cart (s : Till.TillState) (h : s.cart = []) :
    (Till.checkout s true).2 = Till.CheckoutResult.success false ∧
    (Till.checkout s true).1.ledger = s.ledger ∧
    (Till.checkout s true).1.inventory = s.inventory ∧
    (Till.checkout s true).1.persistedInventory = s.inventory ∧
    (Till.checkout s true).1.cart = [] ∧
    (Till.checkout s true).1.member_id = "" ∧
    (Till.checkout s true).1.discount = 0 := by
  unfold Till.checkout
  rw [h]
  simp [Till.validate_cart, Till.save_sale, Till.update_inventory_after_checkout]

/-- Witness for C10: an empty-cart state with a member id and discount set is
reset by a successful checkout. -/
theorem checkout_empty_cart_witness :
    emptyCartState.cart = [] ∧
    ((Till.checkout emptyCartState true).2 = Till.CheckoutResult.success false ∧
     (Till.checkout emptyCartState true).1.ledger = emptyCartState.ledger ∧
     (Till.checkout emptyCartState true).1.inventory = emptyCartState.inventory ∧
     (Till.checkout emptyCartState true).1.persistedInventory = emptyCartState.inventory ∧
     (Till.checkout emptyCartState true).1.cart = [] ∧
     (Till.checkout emptyCartState true).1.member_id = "" ∧
     (Till.checkout emptyCartState true).1.discount = 0) :=
  ⟨by decide, checkout_empty_cart emptyCartState (by decide)⟩

/-- C8: the `add` operation's guards: if the product is found and the
requested quantity exceeds its current stock, or an existing cart line for
the same product makes the merged quantity exceed stock, the operation fails
with `InsufficientStock`; on any failure the whole state (in particular the
cart) is returned unchanged; and `add` never modifies the in-memory or
persisted inventory, nor the ledger. -/
theorem add_to_cart_guards (s : Till.TillState) (bc : String) (q : ℤ) :
    (Till.add_to_cart s bc q).1.inventory = s.inventory ∧
    (Till.add_to_cart s bc q).1.persistedInventory = s.persistedInventory ∧
    (Till.add_to_cart s bc q).1.ledger = s.ledger ∧
    (∀ p, Till.findProduct s.inventory bc = some p → p.stock_qty < q →
      Till.add_to_cart s bc q = (s, Till.AddResult.insufficientStock)) ∧
    (∀ p l, Till.findProduct s.inventory bc = some p →
      Till.findLine s.cart bc = some l → p.stock_qty < l.qty + q →
      Till.add_to_cart s bc q = (s, Till.AddResult.insufficientStock)) ∧
    ((Till.add_to_cart s bc q).2 ≠ Till.AddResult.ok →
      (Till.add_to_cart s bc q).1 = s) := by
  unfold Till.add_to_cart
  cases hfp : Till.findProduct s.inventory bc with
  | none =>
      exact ⟨rfl, rfl, rfl, fun p hp _ => Option.noConfusion hp,
        fun p l hp _ _ => Option.noConfusion hp, fun _ => rfl⟩
  | some p =>
      dsimp only
      by_cases h1 : q > p.stock_qty
      · rw [if_pos h1]
        exact ⟨rfl, rfl, rfl, fun p2 hp2 _ => by cases hp2; rfl,
          fun p2 l hp2 _ _ => by cases hp2; rfl, fun _ => rfl⟩
      · rw [if_neg h1]
        cases hfl : Till.findLine s.cart bc with
        | some l =>
            dsimp only
            by_cases h2 : l.qty + q > p.stock_qty
            · rw [if_pos h2]
              refine ⟨rfl, rfl, rfl, ?_, ?_, fun _ => rfl⟩
              · intro p2 hp2 hlt
                cases hp2
                exact absurd hlt (not_lt.2 (le_of_not_lt h1))
              · intro p2 l2 hp2 hl2 _
                cases hp2; cases hl2; rfl
            · rw [if_neg h2]
              refine ⟨rfl, rfl, rfl, ?_, ?_, ?_⟩
              · intro p2 hp2 hlt
                cases hp2
                exact absurd hlt (not_lt.2 (le_of_not_lt h1))
              · intro p2 l2 hp2 hl2 hlt
                cases hp2; cases hl2
                exact absurd hlt (not_lt.2 (le_of_not_lt h2))
              · intro hne
                exact absurd rfl hne
        | none =>
            dsimp only
            refine ⟨rfl, rfl, rfl, ?_, ?_, ?_⟩
            · intro p2 hp2 hlt
              cases hp2
              exact absurd hlt (not_lt.2 (le_of_not_lt h1))
            · intro p2 l2 _ hl2 _
              exact Option.noConfusion hl2
            · intro hne
              exact absurd rfl hne

/-- Witness for C8: asking for 99 apples of stock 10 fails with
`InsufficientStock` and leaves the state unchanged. -/
theorem add_to_cart_guards_witness :
    Till.findProduct sampleState.inventory "1001" = some pApple ∧
    pApple.stock_qty < 99 ∧
    Till.add_to_cart sampleState "1001" 99 =
      (sampleState, Till.AddResult.insufficientStock) :=
  ⟨by decide, by decide,
    (add_to_cart_guards sampleState "1001" 99).2.2.2.1 pApple (by decide) (by decide)⟩

/-! ### Cart invariant lemmas (for the reachable-cart claim) -/

theorem findLine_eq_none {cart : List Till.CartLine} {bc : String}
    (h : Till.findLine cart bc = none) : ∀ l ∈ cart, l.barcode ≠ bc := by
  induction cart with
  | nil => intro l hl; cases hl
  | cons x rest ih =>
      unfold Till.findLine at h
      by_cases hx : x.barcode = bc
      · rw [if_pos hx] at h; cases h
      · rw [if_neg hx] at h
        intro l hl
        rcases List.mem_cons.1 hl with rfl | hmem
        · exact hx
        · exact ih h l hmem

theorem bumpQty_barcodes (cart : List Till.CartLine) (bc : String) (q : ℤ) :
    (Till.bumpQty cart bc q).map (fun l => l.barcode) =
      cart.map (fun l => l.barcode) := by
  induction cart with
  | nil => rfl
  | cons x rest ih =>
      unfold Till.bumpQty
      by_cases hx : x.barcode = bc
      · rw [if_pos hx]; simp
      · rw [if_neg hx]
        simp [ih]

theorem bumpQty_qty_ge {cart : List Till.CartLine} {bc : String} {q : ℤ}
    (h : ∀ l ∈ cart, 1 ≤ l.qty) (hq : 1 ≤ q) :
    ∀ l ∈ Till.bumpQty cart bc q, 1 ≤ l.qty := by
  induction cart with
  | nil => intro l hl; cases hl
  | cons x rest ih =>
      unfold Till.bumpQty
      by_cases hx : x.barcode = bc
      · rw [if_pos hx]
        intro l hl
        rcases List.mem_cons.1 hl with rfl | hmem
        · have hx1 := h x (List.mem_cons_self x rest)
          simp only []
          omega
        · exact h l (List.mem_cons_of_mem x hmem)
      · rw [if_neg hx]
        intro l hl
        rcases List.mem_cons.1 hl with rfl | hmem
        · exact h l (List.mem_cons_self l rest)
        · exact ih (fun l2 hl2 => h l2 (List.mem_cons_of_mem x hl2)) l hmem

theorem decQty_barcodes (cart : List Till.CartLine) (lid : ℕ) :
    (Till.decQty cart lid).map (fun l => l.barcode) =
      cart.map (fun l => l.barcode) := by
  induction cart with
  | nil => rfl
  | cons x rest ih =>
      unfold Till.decQty
      by_cases hx : x.id = lid
      · rw [if_pos hx]; simp
      · rw [if_neg hx]
        simp [ih]

theorem decQty_qty_ge {cart : List Till.CartLine} {lid : ℕ} {line : Till.CartLine}
    (h : ∀ l ∈ cart, 1 ≤ l.qty) (hfind : Till.findLineById cart lid = some line)
    (hgt : 1 < line.qty) : ∀ l ∈ Till.decQty cart lid, 1 ≤ l.qty := by
  induction cart with
  | nil => intro l hl; cases hl
  | cons x rest ih =>
      unfold Till.findLineById at hfind
      unfold Till.decQty
      by_cases hx : x.id = lid
      · rw [if_pos hx] at hfind
        rw [if_pos hx]
        cases hfind
        intro l hl
        rcases List.mem_cons.1 hl with rfl | hmem
        · simp only []
          omega
        · exact h l (List.mem_cons_of_mem _ hmem)
      · rw [if_neg hx] at hfind
        rw [if_neg hx]
        intro l hl
        rcases List.mem_cons.1 hl with rfl | hmem
        · exact h l (List.mem_cons_self l rest)
        · exact ih (fun l2 hl2 => h l2 (List.mem_cons_of_mem x hl2)) hfind l hmem

theorem cartWF_add (s : Till.TillState) (bc : String) (q : ℤ) (hq : 1 ≤ q)
    (h : Till.cartWF s.cart) : Till.cartWF ((Till.add_to_cart s bc q).1.cart) := by
  unfold Till.add_to_cart
  cases hfp : Till.findProduct s.inventory bc with
  | none => exact h
  | some p =>
      dsimp only
      by_cases h1 : q > p.stock_qty
      · rw [if_pos h1]; exact h
      · rw [if_neg h1]
        cases hfl : Till.findLine s.cart bc with
        | some l =>
            dsimp only
            by_cases h2 : l.qty + q > p.stock_qty
            · rw [if_pos h2]; exact h
            · rw [if_neg h2]
              refine ⟨bumpQty_qty_ge h.1 hq, ?_⟩
              rw [bumpQty_barcodes]
              exact h.2
        | none =>
            dsimp only
            refine ⟨?_, ?_⟩
            · intro l hl
              rcases List.mem_append.1 hl with hmem | hmem
              · exact h.1 l hmem
              · rcases List.mem_singleton.1 hmem with rfl
                exact hq
            · rw [List.map_append]
              rw [List.nodup_append]
              refine ⟨h.2, List.nodup_singleton _, ?_⟩
              intro b hb hb2
              rcases List.mem_map.1 hb with ⟨l, hl, rfl⟩
              rcases List.mem_singleton.1 hb2 with h3
              exact findLine_eq_none hfl l hl h3

theorem cartWF_remove (s : Till.TillState) (lid : ℕ)
    (h : Till.cartWF s.cart) : Till.cartWF ((Till.remove_one_from_cart s lid).cart) := by
  unfold Till.remove_one_from_cart
  cases hfind : Till.findLineById s.cart lid with
  | none => exact h
  | some line =>
      dsimp only
      by_cases hgt : line.qty > 1
      · rw [if_pos hgt]
        refine ⟨decQty_qty_ge h.1 hfind hgt, ?_⟩
        rw [decQty_barcodes]
        exact h.2
      · rw [if_neg hgt]
        refine ⟨?_, ?_⟩
        · intro l hl
          exact h.1 l (List.mem_of_mem_filter hl)
        · exact ((List.filter_sublist s.cart).map (fun l => l.barcode)).nodup h.2

theorem cartWF_step (s : Till.TillState) (op : Till.Op)
    (h : Till.cartWF s.cart) : Till.cartWF ((Till.step s op).cart) := by
  cases op with
  | scan c q =>
      show Till.cartWF ((Till.handle_scan s c q).cart)
      unfold Till.handle_scan
      by_cases hq : q ≤ 0
      · rw [if_pos hq]; exact h
      · rw [if_neg hq]
        by_cases hc : c = ""
        · rw [if_pos hc]; exact h
        · rw [if_neg hc]
          exact cartWF_add s c q (by omega) h
  | selectProduct c => exact cartWF_add s c 1 le_rfl h
  | removeOne lid => exact cartWF_remove s lid h
  | setMember m => exact h
  | setDiscount t v => exact h
  | doCheckout ok =>
      show Till.cartWF ((Till.checkout s ok).1.cart)
      unfold Till.checkout
      cases hv : Till.validate_cart s.inventory s.cart with
      | some e => exact h
      | none => exact ⟨fun l hl => absurd hl (List.not_mem_nil l), List.nodup_nil⟩

theorem cartWF_run (s : Till.TillState) (ops : List Till.Op)
    (h : Till.cartWF s.cart) : Till.cartWF ((Till.run s ops).cart) := by
  induction ops generalizing s with
  | nil => exact h
  | cons op rest ih => exact ih (Till.step s op) (cartWF_step s op h)

/-- C9: in every cart reachable from the freshly initialised session (empty
cart) by any sequence of UI operations - scans, product picks, remove-one
clicks, member/discount edits, checkouts - every cart line has quantity at
least 1 and no two cart lines share a product barcode. -/
theorem reachable_cart_wf (raw : List Till.Product) (ledger0 : List Till.SaleRecord)
    (ops : List Till.Op) :
    (∀ l ∈ (Till.run (Till.initState raw ledger0) ops).cart, 1 ≤ l.qty) ∧
    (((Till.run (Till.initState raw ledger0) ops).cart.map
      (fun l => l.barcode)).Nodup) :=
  cartWF_run (Till.initState raw ledger0) ops
    ⟨fun l hl => absurd hl (List.not_mem_nil l), List.nodup_nil⟩

/-! ### Inventory frame lemmas (stock decrements) -/

theorem eqExceptStock_refl (p : Till.Product) : Till.eqExceptStock p p :=
  ⟨rfl, rfl, rfl, rfl, rfl, rfl, rfl, rfl, rfl, rfl⟩

theorem eqExceptStock_trans {p q r : Till.Product}
    (h1 : Till.eqExceptStock p q) (h2 : Till.eqExceptStock q r) :
    Till.eqExceptStock p r := by
  obtain ⟨a1, a2, a3, a4, a5, a6, a7, a8, a9, a10⟩ := h1
  obtain ⟨b1, b2, b3, b4, b5, b6, b7, b8, b9, b10⟩ := h2
  exact ⟨a1.trans b1, a2.trans b2, a3.trans b3, a4.trans b4, a5.trans b5,
    a6.trans b6, a7.trans b7, a8.trans b8, a9.trans b9, a10.trans b10⟩

theorem decrementStock_forall2 (inv : List Till.Product) (bc : String) (q : ℤ) :
    List.Forall₂ (fun p p0 : Till.Product =>
      Till.eqExceptStock p p0 ∧
      (p.stock_qty = p0.stock_qty ∨ p.stock_qty = max (p0.stock_qty - q) 0) ∧
      (p0.barcode ≠ bc → p = p0)) (Till.decrementStock inv bc q) inv := by
  induction inv with
  | nil => exact List.Forall₂.nil
  | cons p rest ih =>
      unfold Till.decrementStock
      by_cases hp : p.barcode = bc
      · rw [if_pos hp]
        refine List.Forall₂.cons ?_ ?_
        · exact ⟨⟨rfl, rfl, rfl, rfl, rfl, rfl, rfl, rfl, rfl, rfl⟩,
            Or.inr rfl, fun hne => absurd hp hne⟩
        · exact List.forall₂_same.2
            (fun x _ => ⟨eqExceptStock_refl x, Or.inl rfl, fun _ => rfl⟩)
      · rw [if_neg hp]
        exact List.Forall₂.cons ⟨eqExceptStock_refl p, Or.inl rfl, fun _ => rfl⟩ ih

theorem forall2_comp {α : Type} {R S T : α → α → Prop}
    (hcomp : ∀ a b c, R a b → S b c → T a c) :
    ∀ {l1 l2 l3 : List α}, List.Forall₂ R l1 l2 → List.Forall₂ S l2 l3 →
      List.Forall₂ T l1 l3 := by
  intro l1 l2 l3 h1
  induction h1 generalizing l3 with
  | nil =>
      intro h2
      cases h2
      exact List.Forall₂.nil
  | cons hr hrest ih =>
      intro h2
      cases h2 with
      | cons hs hsrest => exact List.Forall₂.cons (hcomp _ _ _ hr hs) (ih hsrest)

theorem update_inventory_frame (inv : List Till.Product) (cart : List Till.CartLine) :
    List.Forall₂ (Till.FrameRel cart) (Till.update_inventory_after_checkout inv cart) inv := by
  induction cart generalizing inv with
  | nil =>
      exact List.forall₂_same.2
        (fun x _ => ⟨eqExceptStock_refl x, fun hx => hx, fun _ => rfl⟩)
  | cons line rest ih =>
      have h1 := decrementStock_forall2 inv line.barcode line.qty
      have h2 := ih (Till.decrementStock inv line.barcode line.qty)
      refine forall2_comp ?_ h2 h1
      intro a b c hab hbc
      refine ⟨eqExceptStock_trans hab.1 hbc.1, ?_, ?_⟩
      · intro hc
        apply hab.2.1
        rcases hbc.2.1 with he | he
        · rw [he]; exact hc
        · rw [he]; exact le_max_right _ 0
      · intro hall
        have hcb : c.barcode ≠ line.barcode :=
          fun hcontra => (hall line (List.mem_cons_self line rest)) hcontra.symm
        have hbceq : b = c := hbc.2.2 hcb
        have hab_eq : a = b := by
          apply hab.2.2
          intro l hl
          rw [hbceq]
          exact hall l (List.mem_cons_of_mem line hl)
        rw [hab_eq, hbceq]

theorem forall2_mem_left {α β : Type} {R : α → β → Prop} {l1 : List α} {l2 : List β}
    (h : List.Forall₂ R l1 l2) {a : α} (ha : a ∈ l1) : ∃ b ∈ l2, R a b := by
  induction h with
  | nil => cases ha
  | cons hr hrest ih =>
      rcases List.mem_cons.1 ha with rfl | hmem
      · exact ⟨_, List.mem_cons_self _ _, hr⟩
      · rcases ih hmem with ⟨b, hb, hrb⟩
        exact ⟨b, List.mem_cons_of_mem _ hb, hrb⟩

theorem stocksNonneg_update (inv : List Till.Product) (cart : List Till.CartLine)
    (h : ∀ p ∈ inv, 0 ≤ p.stock_qty) :
    ∀ p ∈ Till.update_inventory_after_checkout inv cart, 0 ≤ p.stock_qty := by
  intro p hp
  rcases forall2_mem_left (update_inventory_frame inv cart) hp with ⟨p0, hp0, hrel⟩
  exact hrel.2.1 (h p0 hp0)

theorem add_to_cart_inventory (s : Till.TillState) (bc : String) (q : ℤ) :
    (Till.add_to_cart s bc q).1.inventory = s.inventory := by
  unfold Till.add_to_cart
  cases hfp : Till.findProduct s.inventory bc with
  | none => rfl
  | some p =>
      dsimp only
      by_cases h1 : q > p.stock_qty
      · rw [if_pos h1]
      · rw [if_neg h1]
        cases hfl : Till.findLine s.cart bc with
        | some l =>
            dsimp only
            by_cases h2 : l.qty + q > p.stock_qty
            · rw [if_pos h2]
            · rw [if_neg h2]
        | none => rfl

theorem remove_one_inventory (s : Till.TillState) (lid : ℕ) :
    (Till.remove_one_from_cart s lid).inventory = s.inventory := by
  unfold Till.remove_one_from_cart
  cases hfind : Till.findLineById s.cart lid with
  | none => rfl
  | some line =>
      dsimp only
      by_cases hgt : line.qty > 1
      · rw [if_pos hgt]
      · rw [if_neg hgt]

theorem stocksNonneg_step (s : Till.TillState) (op : Till.Op)
    (h : ∀ p ∈ s.inventory, 0 ≤ p.stock_qty) :
    ∀ p ∈ (Till.step s op).inventory, 0 ≤ p.stock_qty := by
  cases op with
  | scan c q =>
      show ∀ p ∈ (Till.handle_scan s c q).inventory, 0 ≤ p.stock_qty
      unfold Till.handle_scan
      by_cases hq : q ≤ 0
      · rw [if_pos hq]; exact h
      · rw [if_neg hq]
        by_cases hc : c = ""
        · rw [if_pos hc]; exact h
        · rw [if_neg hc]
          rw [add_to_cart_inventory]
          exact h
  | selectProduct c =>
      show ∀ p ∈ (Till.add_to_cart s c 1).1.inventory, 0 ≤ p.stock_qty
      rw [add_to_cart_inventory]
      exact h
  | removeOne lid =>
      show ∀ p ∈ (Till.remove_one_from_cart s lid).inventory, 0 ≤ p.stock_qty
      rw [remove_one_inventory]
      exact h
  | setMember m => exact h
  | setDiscount t v => exact h
  | doCheckout ok =>
      show ∀ p ∈ (Till.checkout s ok).1.inventory, 0 ≤ p.stock_qty
      unfold Till.checkout
      cases hv : Till.validate_cart s.inventory s.cart with
      | some e => exact h
      | none =>
          dsimp only
          exact stocksNonneg_update s.inventory s.cart h

/-- C2: starting from any session whose in-memory inventory has only
nonnegative stock quantities, every stock quantity stays nonnegative after
any sequence of UI operations (in particular after every successful
checkout); moreover the per-checkout decrement leaves every inventory row's
stock either unchanged or set to `max (old - sold) 0`, i.e. floored at 0. -/
theorem stock_nonneg_invariant (s : Till.TillState) (ops : List Till.Op)
    (h : ∀ p ∈ s.inventory, 0 ≤ p.stock_qty) :
    (∀ p ∈ (Till.run s ops).inventory, 0 ≤ p.stock_qty) ∧
    (∀ (inv : List Till.Product) (bc : String) (q : ℤ),
      List.Forall₂ (fun p p0 : Till.Product =>
        p.stock_qty = p0.stock_qty ∨ p.stock_qty = max (p0.stock_qty - q) 0)
        (Till.decrementStock inv bc q) inv) := by
  constructor
  · induction ops generalizing s with
    | nil => exact h
    | cons op rest ih => exact ih (Till.step s op) (stocksNonneg_step s op h)
  · intro inv bc q
    exact List.Forall₂.imp (fun a b hrel => hrel.2.1) (decrementStock_forall2 inv bc q)

/-- Witness for C2: a session that scans two apples and checks out keeps all
stock quantities nonnegative. -/
theorem stock_nonneg_invariant_witness :
    (∀ p ∈ sampleState.inventory, 0 ≤ p.stock_qty) ∧
    (∀ p ∈ (Till.run sampleState sampleOps).inventory, 0 ≤ p.stock_qty) :=
  ⟨by decide, (stock_nonneg_invariant sampleState sampleOps (by decide)).1⟩

/-- Counterexample to C4 as stated: the raw inventory file `sampleRaw`
contains the inactive row `pGhost`; a successful checkout (here of an empty
cart) rewrites the inventory file with only the two active rows, so a row
that was read at load is not persisted back. -/
theorem inventory_rewrite_drops_inactive :
    pGhost ∈ sampleRaw ∧
    (Till.checkout (Till.initState sampleRaw []) true).2 =
      Till.CheckoutResult.success false ∧
    (Till.checkout (Till.initState sampleRaw []) true).1.persistedInventory =
      [pApple, pBread] := by
  refine ⟨?_, ?_, ?_⟩ <;> decide

/-- C4 (amended): after a successful checkout the inventory table is
rewritten with exactly the decremented ACTIVE rows read at load - the load
keeps only rows with the active flag set, and only those are persisted back;
of the persisted rows, all columns other than the stock quantity are
unchanged, and a row whose barcode is in no cart line is completely
unchanged. -/
theorem inventory_rewrite_active_frame (raw : List Till.Product) (s : Till.TillState)
    (hinv : s.inventory = Till.loadInventory raw)
    (hval : Till.validate_cart s.inventory s.cart = none) :
    (Till.checkout s true).1.persistedInventory =
      Till.update_inventory_after_checkout (Till.loadInventory raw) s.cart ∧
    List.Forall₂ (fun p p0 => Till.eqExceptStock p p0 ∧
        ((∀ l ∈ s.cart, l.barcode ≠ p0.barcode) → p = p0))
      ((Till.checkout s true).1.persistedInventory) (Till.loadInventory raw) := by
  have hpersist : (Till.checkout s true).1.persistedInventory =
      Till.update_inventory_after_checkout s.inventory s.cart := by
    unfold Till.checkout
    rw [hval]
    rfl
  constructor
  · rw [hpersist, hinv]
  · rw [hpersist, hinv]
    exact List.Forall₂.imp (fun a b hrel => ⟨hrel.1, hrel.2.2⟩)
      (update_inventory_frame (Till.loadInventory raw) s.cart)

/-- Witness for the amended C4: the freshly loaded sample session satisfies
both hypotheses, and its empty-cart checkout persists exactly the updated
active rows. -/
theorem inventory_rewrite_active_frame_witness :
    sampleState.inventory = Till.loadInventory sampleRaw ∧
    Till.validate_cart sampleState.inventory sampleState.cart = none ∧
    (Till.checkout sampleState true).1.persistedInventory =
      Till.update_inventory_after_checkout (Till.loadInventory sampleRaw)
        sampleState.cart :=
  ⟨by decide, by decide,
    (inventory_rewrite_active_frame sampleRaw sampleState (by decide) (by decide)).1⟩

/-! ### Rounding and discount-allocation lemmas -/

theorem round2_sub_le (x : ℚ) : |Till.round2 x - x| ≤ 1 / 200 := by
  have h : |x * 100 - round (x * 100)| ≤ 1 / 2 := abs_sub_round (x * 100)
  have heq : Till.round2 x - x = -((x * 100 - ((round (x * 100) : ℤ) : ℚ)) / 100) := by
    unfold Till.round2
    ring
  rw [heq, abs_neg, abs_div, abs_of_pos (show (0:ℚ) < 100 by norm_num)]
  linarith

theorem sum_map_round2_close (L : List ℚ) :
    |(L.map Till.round2).sum - L.sum| ≤ (L.length : ℚ) / 200 := by
  induction L with
  | nil => simp
  | cons a t ih =>
      have h1 := round2_sub_le a
      have habs : |(Till.round2 a + (t.map Till.round2).sum) - (a + t.sum)| ≤
          |Till.round2 a - a| + |(t.map Till.round2).sum - t.sum| := by
        have hsplit : (Till.round2 a + (t.map Till.round2).sum) - (a + t.sum) =
            (Till.round2 a - a) + ((t.map Till.round2).sum - t.sum) := by ring
        rw [hsplit]
        exact abs_add _ _
      simp only [List.map_cons, List.sum_cons, List.length_cons]
      push_cast
      linarith

theorem save_sale_line_totals (cart : List Till.CartLine) (member : String)
    (dtype : Till.DiscountType) (d : ℚ) (sid : ℕ) :
    (Till.save_sale cart member dtype d sid).map (fun r => r.line_total) =
      cart.map (fun l => Till.round2 (Till.saleLineTotal cart dtype d l)) := by
  unfold Till.save_sale
  rw [List.map_map]
  rfl

theorem saleLineTotal_percent (cart : List Till.CartLine) (d : ℚ) (hd : 0 ≤ d)
    (l : Till.CartLine) :
    Till.saleLineTotal cart Till.DiscountType.percent d l =
      l.unit_price * (l.qty : ℚ) * (1 - d / 100) := by
  unfold Till.saleLineTotal
  by_cases hd0 : d > 0
  · rw [if_pos ⟨rfl, hd0⟩]
    ring
  · rw [if_neg (fun hc => hd0 hc.2), if_neg (by simp)]
    have hz : d = 0 := le_antisymm (not_lt.1 hd0) hd
    rw [hz]
    ring

theorem saleLineTotal_fixed (cart : List Till.CartLine) (d : ℚ) (l : Till.CartLine) :
    Till.saleLineTotal cart Till.DiscountType.fixed d l =
      if 0 < Till.subtotalOf cart then
        l.unit_price * (l.qty : ℚ) -
          (l.unit_price * (l.qty : ℚ) / Till.subtotalOf cart) * d
      else l.unit_price * (l.qty : ℚ) := by
  unfold Till.saleLineTotal
  rw [if_neg (by simp), if_pos rfl]

theorem sum_fixed_line_totals (cart : List Till.CartLine) (d : ℚ)
    (h : 0 < Till.subtotalOf cart) :
    (cart.map (fun l => Till.saleLineTotal cart Till.DiscountType.fixed d l)).sum =
      Till.subtotalOf cart - d := by
  have hne : Till.subtotalOf cart ≠ 0 := ne_of_gt h
  have hmap : cart.map (fun l => Till.saleLineTotal cart Till.DiscountType.fixed d l) =
      cart.map (fun l =>
        l.unit_price * (l.qty : ℚ) * (1 - d / Till.subtotalOf cart)) := by
    apply List.map_congr_left
    intro l _
    rw [saleLineTotal_fixed cart d l, if_pos h]
    field_simp
    ring
  rw [hmap, List.sum_map_mul_right]
  show Till.subtotalOf cart * (1 - d / Till.subtotalOf cart) = _
  field_simp

/-- C3: persisted line totals of one sale.  With a percentage discount
(value at least 0) every persisted line total is
`round2 (unit_price * qty * (1 - d/100))`.  With a fixed discount every
persisted line total is `round2 (pretotal - (pretotal/subtotal) * d)` when
the subtotal is positive, and `round2 pretotal` (no allocation) otherwise.
Consequently, for a fixed discount with positive subtotal, the sum of the
persisted line totals equals `subtotal - d` within 1 cent per line. -/
theorem save_sale_discount_allocation (cart : List Till.CartLine) (member : String)
    (d : ℚ) (sid : ℕ) :
    (0 ≤ d →
      (Till.save_sale cart member Till.DiscountType.percent d sid).map
          (fun r => r.line_total) =
        cart.map (fun l =>
          Till.round2 (l.unit_price * (l.qty : ℚ) * (1 - d / 100)))) ∧
    ((Till.save_sale cart member Till.DiscountType.fixed d sid).map
        (fun r => r.line_total) =
      cart.map (fun l => Till.round2
        (if 0 < Till.subtotalOf cart then
          l.unit_price * (l.qty : ℚ) -
            (l.unit_price * (l.qty : ℚ) / Till.subtotalOf cart) * d
        else l.unit_price * (l.qty : ℚ)))) ∧
    (0 < Till.subtotalOf cart →
      |((Till.save_sale cart member Till.DiscountType.fixed d sid).map
          (fun r => r.line_total)).sum - (Till.subtotalOf cart - d)| ≤
        (cart.length : ℚ) * (1 / 100)) := by
  refine ⟨?_, ?_, ?_⟩
  · intro hd
    rw [save_sale_line_totals]
    exact List.map_congr_left (fun l _ => by rw [saleLineTotal_percent cart d hd l])
  · rw [save_sale_line_totals]
    exact List.map_congr_left (fun l _ => by rw [saleLineTotal_fixed cart d l])
  · intro hs
    rw [save_sale_line_totals]
    have heq : cart.map
        (fun l => Till.round2 (Till.saleLineTotal cart Till.DiscountType.fixed d l)) =
        (cart.map (fun l => Till.saleLineTotal cart Till.DiscountType.fixed d l)).map
          Till.round2 := by
      rw [List.map_map]
      rfl
    rw [heq]
    have hclose := sum_map_round2_close
      (cart.map (fun l => Till.saleLineTotal cart Till.DiscountType.fixed d l))
    rw [sum_fixed_line_totals cart d hs, List.length_map] at hclose
    have hlen : (0:ℚ) ≤ (cart.length : ℚ) := Nat.cast_nonneg _
    linarith

/-- Witness for C3: a two-line cart (pretotals 100 and 200) with a fixed
discount of 30 has a positive subtotal and the persisted totals sum to
`300 - 30` within 2 cents. -/
theorem save_sale_discount_allocation_witness :
    (0:ℚ) ≤ 30 ∧ 0 < Till.subtotalOf sampleCart ∧
    ((Till.save_sale sampleCart "" Till.DiscountType.percent 30 0).map
        (fun r => r.line_total) =
      sampleCart.map (fun l =>
        Till.round2 (l.unit_price * (l.qty : ℚ) * (1 - 30 / 100)))) ∧
    |((Till.save_sale sampleCart "" Till.DiscountType.fixed 30 0).map
        (fun r => r.line_total)).sum - (Till.subtotalOf sampleCart - 30)| ≤
      ((sampleCart.length : ℚ)) * (1 / 100) := by
  have hd : (0:ℚ) ≤ 30 := by norm_num
  have hs : 0 < Till.subtotalOf sampleCart := by
    norm_num [Till.subtotalOf, sampleCart, lineA, lineB]
  exact ⟨hd, hs, (save_sale_discount_allocation sampleCart "" 30 0).1 hd,
    (save_sale_discount_allocation sampleCart "" 30 0).2.2 hs⟩

/-! ### Reorder analyzer theorems -/

/-- C6: the Reorder Analyzer formulas, for any row set it is run on.
(1) A product with sales history gets the dynamic level
`max ⌈avg * 2⌉ 5`; (2) its average monthly sales is the mean of its
per-month quantity totals over the months it appears in; (3) the effective
reorder level is the explicit inventory value when non-null, (4) else the
dynamic level when sales history exists, (5) else 5; (6) a product is in the
low-stock set iff it is an inventory row whose stock quantity is at most its
effective reorder level; (7) for a product with sales history the suggested
reorder quantity is `max (2 * avg - stock) 0` truncated to an integer (the
value is nonnegative, so floor and truncation toward zero agree). -/
theorem reorder_analyzer_formulas (rows : List Dash.LedgerRow) (p : Till.Product)
    (bc : String) (inv : List Till.Product) :
    (∀ a, Dash.avgMonthlySales rows bc = some a →
      Dash.dynamic_reorder_level rows bc = some (max ⌈a * 2⌉ 5)) ∧
    (Dash.monthsOf rows bc ≠ [] →
      Dash.avgMonthlySales rows bc =
        some ((((Dash.monthsOf rows bc).map
          (fun m => (Dash.monthlyQty rows bc m : ℚ))).sum) /
            (Dash.monthsOf rows bc).length)) ∧
    (∀ r, p.reorder_level = some r → Dash.effective_reorder_level rows p = r) ∧
    (p.reorder_level = none → ∀ dyn,
      Dash.dynamic_reorder_level rows p.barcode = some dyn →
      Dash.effective_reorder_level rows p = dyn) ∧
    (p.reorder_level = none →
      Dash.dynamic_reorder_level rows p.barcode = none →
      Dash.effective_reorder_level rows p = 5) ∧
    (p ∈ Dash.low_stock_df rows inv ↔
      p ∈ inv ∧ p.stock_qty ≤ Dash.effective_reorder_level rows p) ∧
    (∀ a, Dash.avgMonthlySales rows p.barcode = some a →
      Dash.reorder_qty rows p = ⌊max (2 * a - (p.stock_qty : ℚ)) 0⌋ ∧
      0 ≤ Dash.reorder_qty rows p) := by
  refine ⟨?_, ?_, ?_, ?_, ?_, ?_, ?_⟩
  · intro a h
    unfold Dash.dynamic_reorder_level
    rw [h]
    rfl
  · intro h
    unfold Dash.avgMonthlySales
    rw [if_neg (by simpa using h)]
  · intro r h
    unfold Dash.effective_reorder_level
    rw [h]
  · intro hnone dyn hdyn
    unfold Dash.effective_reorder_level
    rw [hnone, hdyn]
  · intro hnone hdyn
    unfold Dash.effective_reorder_level
    rw [hnone, hdyn]
  · unfold Dash.low_stock_df Dash.low_stock
    rw [List.mem_filter]
    simp only [decide_eq_true_eq]
  · intro a h
    unfold Dash.reorder_qty Dash.avgOrZero
    rw [h]
    refine ⟨rfl, ?_⟩
    rw [Option.getD_some]
    refine Int.le_floor.2 ?_
    push_cast
    exact le_max_right _ 0

/-- Witness for C6: `pBread` (no explicit reorder level) against a ledger
with 4 units in January and 6 in February: the analyzer formulas at this
concrete input, with every hypothesis discharged. -/
theorem reorder_analyzer_formulas_witness :
    Dash.monthsOf sampleRows "2002" ≠ [] ∧
    pBread.reorder_level = none ∧
    (Dash.avgMonthlySales sampleRows "2002" =
      some ((((Dash.monthsOf sampleRows "2002").map
        (fun m => (Dash.monthlyQty sampleRows "2002" m : ℚ))).sum) /
          (Dash.monthsOf sampleRows "2002").length)) ∧
    (Dash.dynamic_reorder_level sampleRows "2002" =
      some (max ⌈((((Dash.monthsOf sampleRows "2002").map
        (fun m => (Dash.monthlyQty sampleRows "2002" m : ℚ))).sum) /
          (Dash.monthsOf sampleRows "2002").length) * 2⌉ 5)) ∧
    (pBread ∈ Dash.low_stock_df sampleRows [pBread] ↔
      pBread ∈ [pBread] ∧
        pBread.stock_qty ≤ Dash.effective_reorder_level sampleRows pBread) := by
  have hne : Dash.monthsOf sampleRows "2002" ≠ [] := by decide
  have havg := (reorder_analyzer_formulas sampleRows pBread "2002" [pBread]).2.1 hne
  refine ⟨hne, rfl, havg, ?_, ?_⟩
  · exact (reorder_analyzer_formulas sampleRows pBread "2002" [pBread]).1 _ havg
  · exact (reorder_analyzer_formulas sampleRows pBread "2002" [pBread]).2.2.2.2.2.1

/-- Counterexample to C5 as stated: the reorder computation runs on the
FILTERED ledger, not the full one.  Over the same two-row ledger and
one-product inventory, the all-inclusive filter settings `fAll` give
`pWidget` effective reorder level 22 (average 11 over two months) and flag
it low stock (7 <= 22), while the January-only date range `fJan` gives
level 5 (average 2, floored dynamic level 5) and does not flag it
(7 > 5): the effective levels and the low-stock sets differ. -/
theorem reorder_depends_on_filters :
    Dash.effective_reorder_level (Dash.sales_filtered wLedger wInv fAll) pWidget ≠
      Dash.effective_reorder_level (Dash.sales_filtered wLedger wInv fJan) pWidget ∧
    Dash.low_stock_df (Dash.sales_filtered wLedger wInv fAll) wInv ≠
      Dash.low_stock_df (Dash.sales_filtered wLedger wInv fJan) wInv := by
  have h1 : Dash.sales_filtered wLedger wInv fAll = [wJan, wFeb] := by decide
  have h2 : Dash.sales_filtered wLedger wInv fJan = [wJan] := by decide
  have hmA : Dash.monthsOf [wJan, wFeb] "3003" = [(2025, 1), (2025, 2)] := by decide
  have hqA1 : Dash.monthlyQty [wJan, wFeb] "3003" (2025, 1) = 2 := by decide
  have hqA2 : Dash.monthlyQty [wJan, wFeb] "3003" (2025, 2) = 20 := by decide
  have havgA : Dash.avgMonthlySales [wJan, wFeb] "3003" = some 11 := by
    unfold Dash.avgMonthlySales
    rw [hmA]
    simp [hqA1, hqA2]
    norm_num
  have hdynA : Dash.dynamic_reorder_level [wJan, wFeb] "3003" = some 22 := by
    unfold Dash.dynamic_reorder_level
    rw [havgA]
    simp
    norm_num
  have hA : Dash.effective_reorder_level [wJan, wFeb] pWidget = 22 := by
    have hstep : Dash.effective_reorder_level [wJan, wFeb] pWidget =
        match Dash.dynamic_reorder_level [wJan, wFeb] "3003" with
        | some dyn => dyn
        | none => 5 := rfl
    rw [hstep, hdynA]
  have hmB : Dash.monthsOf [wJan] "3003" = [(2025, 1)] := by decide
  have hqB1 : Dash.monthlyQty [wJan] "3003" (2025, 1) = 2 := by decide
  have havgB : Dash.avgMonthlySales [wJan] "3003" = some 2 := by
    unfold Dash.avgMonthlySales
    rw [hmB]
    simp [hqB1]
  have hdynB : Dash.dynamic_reorder_level [wJan] "3003" = some 5 := by
    unfold Dash.dynamic_reorder_level
    rw [havgB]
    simp
    norm_num
  have hB : Dash.effective_reorder_level [wJan] pWidget = 5 := by
    have hstep : Dash.effective_reorder_level [wJan] pWidget =
        match Dash.dynamic_reorder_level [wJan] "3003" with
        | some dyn => dyn
        | none => 5 := rfl
    rw [hstep, hdynB]
  have hlsA : Dash.low_stock_df [wJan, wFeb] wInv = [pWidget] := by
    have hflag : Dash.low_stock [wJan, wFeb] pWidget = true := by
      unfold Dash.low_stock
      rw [hA]
      decide
    unfold Dash.low_stock_df
    simp [List.filter, hflag]
  have hlsB : Dash.low_stock_df [wJan] wInv = [] := by
    have hflag : Dash.low_stock [wJan] pWidget = false := by
      unfold Dash.low_stock
      rw [hB]
      decide
    unfold Dash.low_stock_df
    simp [List.filter, hflag]
  constructor
  · rw [h1, h2, hA, hB]
    decide
  · rw [h1, h2, hlsA, hlsB]
    simp

/-- C5 (amended): the Reorder Analyzer is computed from the FILTERED sales
ledger (the date-range / category / brand sidebar selection), not from the
full ledger.  Its outputs depend only on the selected row set: two filter
settings that select the same rows give identical effective reorder levels
and low-stock sets, and filter settings that keep every ledger row make the
analyzer run on the full ledger; but, as the counterexample shows, two
different selections over the same ledger can give different levels and
flags. -/
theorem reorder_filtered_congruence (ledger : List Dash.LedgerRow)
    (inv : List Till.Product) (f1 f2 : Dash.Filters)
    (h : Dash.sales_filtered ledger inv f1 = Dash.sales_filtered ledger inv f2) :
    (∀ p, Dash.effective_reorder_level (Dash.sales_filtered ledger inv f1) p =
      Dash.effective_reorder_level (Dash.sales_filtered ledger inv f2) p) ∧
    Dash.low_stock_df (Dash.sales_filtered ledger inv f1) inv =
      Dash.low_stock_df (Dash.sales_filtered ledger inv f2) inv ∧
    ((∀ r ∈ ledger, Dash.keepRow inv f1 r = true) →
      Dash.sales_filtered ledger inv f1 = ledger) := by
  refine ⟨fun p => by rw [h], by rw [h], fun hall => ?_⟩
  unfold Dash.sales_filtered
  exact List.filter_eq_self.2 hall

/-- Witness for the amended C5: identical filter settings trivially select
the same rows, and `fAll` keeps every row of `wLedger`, so the analyzer
there runs on the full ledger. -/
theorem reorder_filtered_congruence_witness :
    Dash.sales_filtered wLedger wInv fAll = Dash.sales_filtered wLedger wInv fAll ∧
    (∀ r ∈ wLedger, Dash.keepRow wInv fAll r = true) ∧
    Dash.sales_filtered wLedger wInv fAll = wLedger := by
  have hall : ∀ r ∈ wLedger, Dash.keepRow wInv fAll r = true := by decide
  exact ⟨rfl, hall,
    (reorder_filtered_congruence wLedger wInv fAll fAll rfl).2.2 hall⟩
